import Mathlib

/-!
# Verification of the SwarmChat speech subsystem

Shallow embedding of `src/frontend/src/lib/SpeechHandler.js`, the speech
interaction core of the SwarmChat client.  Strings are modelled as `List Char`;
the JavaScript runtime behaviours the code relies on (regex global matching,
`String.prototype.includes`, `toLowerCase`, `trim`, the Web Speech queue and
the event loop) are modelled explicitly below, next to the function that uses
them.
-/

namespace SwarmChat

/-! ## Character predicates and JS string primitives

`isTermChar` is membership in the regex character class `[.!?]` used by the
sentence splitter (SpeechHandler.js line 147).  `lowerStr` models
`String.prototype.toLowerCase` (the repository only ever compares ASCII voice
names, where `Char.toLower` agrees with JS).  `containsSub pat s` models
`s.includes(pat)`: `pat` occurs contiguously inside `s`. -/

def isTermChar (c : Char) : Bool := c == '.' || c == '!' || c == '?'

def lowerStr (s : List Char) : List Char := s.map Char.toLower

def beginsWith : List Char → List Char → Bool
  | [], _ => true
  | _ :: _, [] => false
  | a :: as, b :: bs => a == b && beginsWith as bs

def containsSub (pat : List Char) : List Char → Bool
  | [] => beginsWith pat []
  | c :: cs => beginsWith pat (c :: cs) || containsSub pat cs

/-! ## Voice catalog entries and character voice profiles

`Voice` models an entry of `this.voices` (a `SpeechSynthesisVoice`); only the
`name` field is read by the resolver.  `VoiceProfile` mirrors one entry of
`this.characterVoices` (SpeechHandler.js lines 25-54). -/

structure Voice where
  name : List Char
deriving DecidableEq, Repr

inductive VoiceGender
  | male
  | female
  | neutral
deriving DecidableEq, Repr

structure VoiceProfile where
  preferredLang : List Char
  pitch : ℚ
  rate : ℚ
  voiceGender : VoiceGender
  voicePriority : List (List Char)
deriving DecidableEq, Repr

def hemingwayProfile : VoiceProfile :=
  { preferredLang := "en-US".toList
    pitch := (0.85 : ℚ)
    rate := (0.9 : ℚ)
    voiceGender := .male
    voicePriority := ["Google US English".toList, "Microsoft David".toList, "Alex".toList] }

def pynchonProfile : VoiceProfile :=
  { preferredLang := "en-US".toList
    pitch := (1.1 : ℚ)
    rate := (1.15 : ℚ)
    voiceGender := .male
    voicePriority := ["Google US English".toList, "Microsoft Mark".toList, "Alex".toList] }

def dickinsonProfile : VoiceProfile :=
  { preferredLang := "en-US".toList
    pitch := (1.2 : ℚ)
    rate := (0.85 : ℚ)
    voiceGender := .female
    voicePriority := ["Google US English Female".toList, "Microsoft Zira".toList, "Samantha".toList] }

def moderatorProfile : VoiceProfile :=
  { preferredLang := "en-US".toList
    pitch := (1 : ℚ)
    rate := (1 : ℚ)
    voiceGender := .neutral
    voicePriority := ["Google US English".toList, "Microsoft David".toList, "Alex".toList] }

/-- Result of the JS property read `this.characterVoices[character]` on the
object literal of lines 25-54.  A plain object literal inherits
`Object.prototype`, so the read yields: the stored profile for one of the four
own keys; a truthy inherited member (a function such as `constructor` or
`toString`, or `Object.prototype` itself for `__proto__`) for an
`Object.prototype` member name; and `undefined` for every other key. -/
inductive JsLookup
  | profile (p : VoiceProfile)
  | inherited
  | undefined
deriving DecidableEq, Repr

/-- The member names a plain object literal inherits from `Object.prototype`. -/
def objectProtoKeys : List (List Char) :=
  ["constructor".toList, "hasOwnProperty".toList, "isPrototypeOf".toList,
   "propertyIsEnumerable".toList, "toLocaleString".toList, "toString".toList,
   "valueOf".toList, "__proto__".toList, "__defineGetter__".toList,
   "__defineSetter__".toList, "__lookupGetter__".toList, "__lookupSetter__".toList]

/-- The `this.characterVoices` lookup (lines 25-54) with JS prototype-chain
semantics. -/
def characterVoices (character : List Char) : JsLookup :=
  if character = "Hemingway".toList then .profile hemingwayProfile
  else if character = "Pynchon".toList then .profile pynchonProfile
  else if character = "Dickinson".toList then .profile dickinsonProfile
  else if character = "Moderator".toList then .profile moderatorProfile
  else if character ∈ objectProtoKeys then .inherited
  else .undefined

/-- What `const settings = this.characterVoices[character] ||
this.characterVoices["Moderator"]` (line 83) binds.  Only `undefined` is falsy
there: an inherited `Object.prototype` member is truthy and is kept as
`settings`, so the Moderator default is NOT applied for such keys. -/
inductive Settings
  | profile (p : VoiceProfile)
  | inherited
deriving DecidableEq, Repr

def settingsFor (character : List Char) : Settings :=
  match characterVoices character with
  | .profile p => .profile p
  | .inherited => .inherited
  | .undefined => .profile moderatorProfile

/-- The preference list the loop at lines 86-93 effectively iterates.  For a
profile, `settings.voicePriority` is the stored (always truthy) array; for an
inherited member, `settings.voicePriority` is `undefined`, the
`if (settings.voicePriority)` guard fails and the loop body never runs —
an empty effective list. -/
def priorityListFor (character : List Char) : List (List Char) :=
  match settingsFor character with
  | .profile p => p.voicePriority
  | .inherited => []

/-- `v.name.toLowerCase().includes(priorityVoice.toLowerCase())` (lines 88-90). -/
def voiceNameMatches (v : Voice) (priorityVoice : List Char) : Bool :=
  containsSub (lowerStr priorityVoice) (lowerStr v.name)

/-- The `for (const priorityVoice of settings.voicePriority)` loop with
`this.voices.find(...)` and early `break` (lines 86-93): first preference that
matches some catalog entry wins, scanning the catalog in order. -/
def pickPriority (voices : List Voice) : List (List Char) → Option Voice
  | [] => none
  | p :: ps =>
    match voices.find? (fun v => voiceNameMatches v p) with
    | some v => some v
    | none => pickPriority voices ps

/-- `findVoiceForCharacter` (lines 82-100): the guarded priority scan over the
effective preference list, then fall back to `this.voices[0]` when the catalog
is non-empty, else `null` (`Option.none`). -/
def findVoiceForCharacter (voices : List Voice) (character : List Char) : Option Voice :=
  match pickPriority voices (priorityListFor character) with
  | some v => some v
  | none => voices.head?

lemma pickPriority_eq_none (voices : List Voice) (ps : List (List Char))
    (h : ∀ p ∈ ps, ∀ v ∈ voices, voiceNameMatches v p = false) :
    pickPriority voices ps = none := by
  induction ps with
  | nil => rfl
  | cons p ps ih =>
    have hfind : voices.find? (fun v => voiceNameMatches v p) = none := by
      rw [List.find?_eq_none]
      intro v hv
      simp [h p (by simp) v hv]
    simp only [pickPriority, hfind]
    exact ih (fun q hq v hv => h q (by simp [hq]) v hv)

lemma moderator_lookup :
    characterVoices ("Moderator".toList) = JsLookup.profile moderatorProfile := by
  decide

/-- Claim C3: if no name preference of the effective preference list matches
any catalog entry, `findVoiceForCharacter` returns the catalog's first entry
(`voices.head?`), hence the same entry on every repeated call with the same
catalog, and on an empty catalog it returns `none` for every speaker. -/
theorem c3_fallback_first_voice (voices : List Voice) (character : List Char)
    (h : ∀ p ∈ priorityListFor character, ∀ v ∈ voices,
      voiceNameMatches v p = false) :
    findVoiceForCharacter voices character = voices.head? ∧
      ∀ other : List Char, findVoiceForCharacter [] other = none := by
  constructor
  · unfold findVoiceForCharacter
    rw [pickPriority_eq_none voices _ h]
  · intro other
    unfold findVoiceForCharacter
    rw [pickPriority_eq_none [] _ (by intro p hp v hv; simp at hv)]
    rfl

theorem c3_fallback_first_voice_witness :
    findVoiceForCharacter [⟨"Zarvox".toList⟩] ("Hemingway".toList) =
        some ⟨"Zarvox".toList⟩ ∧
      findVoiceForCharacter [] ("Dickinson".toList) = none := by
  have h := c3_fallback_first_voice [⟨"Zarvox".toList⟩] ("Hemingway".toList) (by decide)
  exact ⟨by rw [h.1]; rfl, h.2 _⟩

/-- Claim C4, counterexample: the identity `"constructor"` is not a key of the
profile table, yet `this.characterVoices["constructor"]` is a truthy member
inherited from `Object.prototype`, so line 83's `|| Moderator` default is
skipped and `settings.voicePriority` is `undefined`, skipping the preference
loop.  On the catalog `[Samantha, Alex]` the resolver therefore returns the
first entry `Samantha` for `"constructor"` while `"Moderator"` resolves to
`Alex` (through its `'Alex'` preference) — the two results differ. -/
theorem c4_proto_key_cex :
    characterVoices ("constructor".toList) = JsLookup.inherited ∧
      findVoiceForCharacter [⟨"Samantha".toList⟩, ⟨"Alex".toList⟩]
          ("constructor".toList) = some ⟨"Samantha".toList⟩ ∧
      findVoiceForCharacter [⟨"Samantha".toList⟩, ⟨"Alex".toList⟩]
          ("Moderator".toList) = some ⟨"Alex".toList⟩ ∧
      findVoiceForCharacter [⟨"Samantha".toList⟩, ⟨"Alex".toList⟩]
          ("constructor".toList) ≠
        findVoiceForCharacter [⟨"Samantha".toList⟩, ⟨"Alex".toList⟩]
          ("Moderator".toList) := by
  decide

/-- Claim C4 (amended): a speaker identity on which the lookup yields
`undefined` — absent from the profile table AND not a member name inherited
from `Object.prototype` — resolves exactly as the designated default identity
"Moderator" does, on the same catalog.  (For an inherited member name such as
`"constructor"` the truthy lookup suppresses the Moderator default and the
preference loop, and the resolver falls straight to the catalog's first
entry.) -/
theorem c4_unknown_speaker_defaults (voices : List Voice) (character : List Char)
    (h : characterVoices character = JsLookup.undefined) :
    findVoiceForCharacter voices character =
      findVoiceForCharacter voices ("Moderator".toList) := by
  unfold findVoiceForCharacter priorityListFor settingsFor
  rw [h, moderator_lookup]

theorem c4_unknown_speaker_defaults_witness :
    findVoiceForCharacter [⟨"Fred".toList⟩] ("Alice".toList) =
      findVoiceForCharacter [⟨"Fred".toList⟩] ("Moderator".toList) :=
  c4_unknown_speaker_defaults [⟨"Fred".toList⟩] ("Alice".toList) (by decide)

/-! ## Sentence splitting: `text.match(/[^.!?]+[.!?]+/g) || [text]` (line 147)

The JS regex engine scans left to right for non-overlapping matches of
"one or more non-terminal characters followed by one or more terminal
characters".  `scan st t` is a character-by-character model of that scan:

* `st = none` — not inside a candidate match (terminal characters here can
  start no match and are skipped);
* `st = some (acc, [])` — inside the `[^.!?]+` part, `acc` holds the
  consumed characters in reverse;
* `st = some (acc, t :: ts)` — inside the `[.!?]+` part, `t :: ts` holds the
  consumed terminal characters in reverse; a following non-terminal character
  (or the end of input) completes the match `acc.reverse ++ (t :: ts).reverse`.

A candidate that reaches the end of input without any terminal character is
not a match (the regex requires `[.!?]+`), so `scan` drops it — exactly the
engine's behaviour of failing at every start position inside a trailing
unterminated run. -/

def scan : Option (List Char × List Char) → List Char → List (List Char)
  | some (acc, t :: ts), [] => [acc.reverse ++ (t :: ts).reverse]
  | _, [] => []
  | none, c :: cs =>
    if isTermChar c then scan none cs else scan (some ([c], [])) cs
  | some (acc, []), c :: cs =>
    if isTermChar c then scan (some (acc, [c])) cs else scan (some (c :: acc, [])) cs
  | some (acc, t :: ts), c :: cs =>
    if isTermChar c then scan (some (acc, c :: t :: ts)) cs
    else (acc.reverse ++ (t :: ts).reverse) :: scan (some ([c], [])) cs

/-- `text.match(/[^.!?]+[.!?]+/g)`, with `null` rendered as `[]`. -/
def jsMatches (text : List Char) : List (List Char) := scan none text

/-- `text.match(...) || [text]` (line 147): `match` yields `null` (never an
empty array) when there is no match, and `|| [text]` then falls back to the
whole input as a single unit. -/
def splitSentences (text : List Char) : List (List Char) :=
  match jsMatches text with
  | [] => [text]
  | m :: ms => m :: ms

/-- `sentence.trim()` (line 151): strip leading and trailing whitespace
(the repository's inputs are ASCII, where `Char.isWhitespace` matches JS). -/
def trimChars (s : List Char) : List Char :=
  ((s.dropWhile Char.isWhitespace).reverse.dropWhile Char.isWhitespace).reverse

/-- The sentence units actually handed to `SpeechSynthesisUtterance`
(lines 147-151): the split units, each trimmed. -/
def spokenUnits (text : List Char) : List (List Char) :=
  (splitSentences text).map trimChars

/-- A run of characters none of which is sentence-terminal contributes no
match: from any state, scanning it ends exactly as scanning the empty input
does (the candidate never completes its `[.!?]+` part inside the run). -/
lemma scan_no_term_eq_nil (b : List Char) (hb : ∀ c ∈ b, isTermChar c = false) :
    ∀ st, scan st b = scan st [] := by
  induction b with
  | nil => intro st; rfl
  | cons c cs ih =>
    intro st
    have hc : isTermChar c = false := hb c (by simp)
    have hcs : ∀ x ∈ cs, isTermChar x = false := fun x hx => hb x (by simp [hx])
    rcases st with _ | ⟨acc, _ | ⟨t, ts⟩⟩
    · simp only [scan, hc, Bool.false_eq_true, if_false]
      rw [ih hcs]
      rfl
    · simp only [scan, hc, Bool.false_eq_true, if_false]
      rw [ih hcs]
      rfl
    · simp only [scan, hc, Bool.false_eq_true, if_false]
      rw [ih hcs]
      rfl

lemma jsMatches_of_no_term (t : List Char) (h : ∀ c ∈ t, isTermChar c = false) :
    jsMatches t = [] := by
  unfold jsMatches
  rw [scan_no_term_eq_nil t h none]
  rfl

lemma scan_cons_none (c : Char) (cs : List Char) :
    scan none (c :: cs) =
      if isTermChar c then scan none cs else scan (some ([c], [])) cs := rfl

lemma scan_cons_acc (acc : List Char) (c : Char) (cs : List Char) :
    scan (some (acc, [])) (c :: cs) =
      if isTermChar c then scan (some (acc, [c])) cs
      else scan (some (c :: acc, [])) cs := rfl

lemma scan_cons_full (acc : List Char) (t : Char) (ts : List Char) (c : Char) (cs : List Char) :
    scan (some (acc, t :: ts)) (c :: cs) =
      if isTermChar c then scan (some (acc, c :: t :: ts)) cs
      else (acc.reverse ++ (t :: ts).reverse) :: scan (some ([c], [])) cs := rfl

/-- Appending a terminal-free run `b` to an input `a` whose last character is
sentence-terminal changes no match: the scan of `a ++ b` equals the scan of
`a` from any state. -/
lemma scan_drop_tail (b : List Char) (hb : ∀ c ∈ b, isTermChar c = false) :
    ∀ a : List Char, ∀ q : Char, a.getLast? = some q → isTermChar q = true →
      ∀ st, scan st (a ++ b) = scan st a := by
  intro a
  induction a with
  | nil => intro q hq; simp at hq
  | cons c cs ih =>
    intro q hq hqt st
    cases cs with
    | nil =>
      have hc : c = q := by simpa using hq
      subst hc
      have hb' := scan_no_term_eq_nil b hb
      rcases st with _ | ⟨acc, _ | ⟨t, ts⟩⟩
      · show scan none (c :: b) = scan none [c]
        rw [scan_cons_none, scan_cons_none, if_pos hqt, if_pos hqt, hb']
      · show scan (some (acc, [])) (c :: b) = scan (some (acc, [])) [c]
        rw [scan_cons_acc, scan_cons_acc, if_pos hqt, if_pos hqt, hb']
      · show scan (some (acc, t :: ts)) (c :: b) = scan (some (acc, t :: ts)) [c]
        rw [scan_cons_full, scan_cons_full, if_pos hqt, if_pos hqt, hb']
    | cons d ds =>
      have hq' : (d :: ds).getLast? = some q := by
        rwa [List.getLast?_cons_cons] at hq
      have ih' := fun st => ih q hq' hqt st
      rcases st with _ | ⟨acc, _ | ⟨t, ts⟩⟩
      · show scan none (c :: (d :: ds ++ b)) = scan none (c :: (d :: ds))
        rw [scan_cons_none, scan_cons_none]
        by_cases hc : isTermChar c
        · rw [if_pos hc, if_pos hc, ih']
        · rw [if_neg hc, if_neg hc, ih']
      · show scan (some (acc, [])) (c :: (d :: ds ++ b)) =
          scan (some (acc, [])) (c :: (d :: ds))
        rw [scan_cons_acc, scan_cons_acc]
        by_cases hc : isTermChar c
        · rw [if_pos hc, if_pos hc, ih']
        · rw [if_neg hc, if_neg hc, ih']
      · show scan (some (acc, t :: ts)) (c :: (d :: ds ++ b)) =
          scan (some (acc, t :: ts)) (c :: (d :: ds))
        rw [scan_cons_full, scan_cons_full]
        by_cases hc : isTermChar c
        · rw [if_pos hc, if_pos hc, ih']
        · rw [if_neg hc, if_neg hc, ih']

/-- The state invariant of `scan`: the collected `[.!?]+` part holds only
terminal characters. -/
def scanInv (st : Option (List Char × List Char)) : Prop :=
  ∀ acc ts, st = some (acc, ts) → ∀ x ∈ ts, isTermChar x = true

lemma emitted_last_term (acc : List Char) (t : Char) (ts : List Char)
    (h : ∀ x ∈ t :: ts, isTermChar x = true) :
    ∃ q, (acc.reverse ++ (t :: ts).reverse).getLast? = some q ∧ isTermChar q = true := by
  refine ⟨t, ?_, h t (by simp)⟩
  have hne : (t :: ts).reverse ≠ [] := by simp
  rw [List.getLast?_append_of_ne_nil _ hne, List.getLast?_reverse]
  rfl

/-- Every unit the scan emits ends in a terminal character. -/
lemma scan_units_end_term :
    ∀ (t : List Char) (st : Option (List Char × List Char)), scanInv st →
      ∀ u ∈ scan st t, ∃ q, u.getLast? = some q ∧ isTermChar q = true := by
  intro t
  induction t with
  | nil =>
    intro st hinv u hu
    rcases st with _ | ⟨acc, _ | ⟨t, ts⟩⟩
    · simp [scan] at hu
    · simp [scan] at hu
    · simp only [scan, List.mem_singleton] at hu
      subst hu
      exact emitted_last_term acc t ts (hinv acc (t :: ts) rfl)
  | cons c cs ih =>
    intro st hinv u hu
    rcases st with _ | ⟨acc, _ | ⟨t, ts⟩⟩ <;> by_cases hc : isTermChar c <;>
      simp only [scan, hc, if_true, Bool.false_eq_true, if_false] at hu
    · exact ih none (by intro acc ts h; cases h) u hu
    · exact ih (some ([c], [])) (by rintro acc ts ⟨⟩ x hx; simp at hx) u hu
    · refine ih (some (acc, [c])) ?_ u hu
      rintro acc' ts' ⟨⟩ x hx
      simp only [List.mem_singleton] at hx
      subst hx; exact hc
    · exact ih (some (c :: acc, [])) (by rintro acc' ts' ⟨⟩ x hx; simp at hx) u hu
    · refine ih (some (acc, c :: t :: ts)) ?_ u hu
      rintro acc' ts' ⟨⟩ x hx
      rcases List.mem_cons.mp hx with h | h
      · subst h; exact hc
      · exact hinv acc (t :: ts) rfl x h
    · rcases List.mem_cons.mp hu with h | h
      · subst h
        exact emitted_last_term acc t ts (hinv acc (t :: ts) rfl)
      · exact ih (some ([c], [])) (by rintro acc' ts' ⟨⟩ x hx; simp at hx) u h

/-- Claim C5, counterexample: the unit actually handed to synthesis is the
split text trimmed (line 151), so an input with no terminal punctuation but
with trailing whitespace is not mapped to one unit equal to the whole input. -/
theorem c5_whole_input_cex :
    spokenUnits ("no punctuation here ".toList) ≠ [("no punctuation here ".toList)] := by
  decide

/-- Claim C5 (amended): `"Hello there. How are you?"` yields exactly the units
`"Hello there."` and `"How are you?"`, and an input with no terminal
punctuation character yields exactly one unit equal to the whole input trimmed
of surrounding whitespace (hence equal to the whole input whenever the input
has no leading or trailing whitespace). -/
theorem c5_sentence_units :
    spokenUnits ("Hello there. How are you?".toList) =
        ["Hello there.".toList, "How are you?".toList] ∧
      ∀ t : List Char, (∀ c ∈ t, isTermChar c = false) →
        spokenUnits t = [trimChars t] := by
  constructor
  · decide
  · intro t ht
    unfold spokenUnits splitSentences
    rw [jsMatches_of_no_term t ht]
    rfl

theorem c5_sentence_units_witness :
    spokenUnits ("no punctuation here".toList) =
      [trimChars ("no punctuation here".toList)] :=
  c5_sentence_units.2 ("no punctuation here".toList) (by decide)

/-- Claim C10, counterexample: on the input `".x"` — which contains the
terminal mark `'.'` followed by the non-empty terminal-free text `"x"` — the
regex finds no complete match (`[^.!?]+[.!?]+` needs a non-terminal character
before the mark), so the `|| [text]` fallback speaks the whole input: the
trailing `"x"` is passed to synthesis, and the single spoken unit does not end
in terminal punctuation. -/
theorem c10_trailing_kept_cex :
    spokenUnits (".x".toList) = [(".x".toList)] ∧ isTermChar 'x' = false := by
  decide

/-- Claim C10 (amended): if the input is `a ++ b` where `a` ends in a terminal
punctuation mark and produces at least one complete sentence match, and the
trailing `b` is non-empty with no terminal punctuation, then the split drops
`b` entirely: the units are exactly the matches of `a`, each ends in a
terminal mark, and what reaches synthesis are just those units trimmed. -/
theorem c10_trailing_dropped (a b : List Char) (q : Char)
    (hlast : a.getLast? = some q) (hterm : isTermChar q = true)
    (hb : ∀ c ∈ b, isTermChar c = false) (hm : jsMatches a ≠ []) :
    splitSentences (a ++ b) = jsMatches a ∧
      spokenUnits (a ++ b) = (jsMatches a).map trimChars ∧
      ∀ u ∈ jsMatches a, ∃ r, u.getLast? = some r ∧ isTermChar r = true := by
  have hdrop : jsMatches (a ++ b) = jsMatches a :=
    scan_drop_tail b hb a q hlast hterm none
  have hsplit : splitSentences (a ++ b) = jsMatches a := by
    unfold splitSentences
    rw [hdrop]
    cases h : jsMatches a with
    | nil => exact absurd h hm
    | cons m ms => rfl
  refine ⟨hsplit, ?_, ?_⟩
  · unfold spokenUnits
    rw [hsplit]
  · intro u hu
    exact scan_units_end_term a none (by intro acc ts h; cases h) u hu

theorem c10_trailing_dropped_witness :
    splitSentences ("Hi.".toList ++ " bye".toList) = jsMatches ("Hi.".toList) ∧
      spokenUnits ("Hi.".toList ++ " bye".toList) =
        (jsMatches ("Hi.".toList)).map trimChars ∧
      ∀ u ∈ jsMatches ("Hi.".toList), ∃ r, u.getLast? = some r ∧ isTermChar r = true :=
  c10_trailing_dropped ("Hi.".toList) (" bye".toList) '.'
    (by decide) (by decide) (by decide) (by decide)

/-! ## Recognition controller (lines 56-71, 111-132, 178-185)

`RecState` is the observable state of the handler: whether the constructor
found a recognition capability (line 12), `this.isListening`, whether the
platform recognizer currently has an active session (the platform-side fact
that makes `recognition.start()` throw `InvalidStateError`), and
`this.onSpeechCallback` (callbacks identified by a token).  `recognition.stop()`
(line 130) only requests a stop — the platform session ends later, when the
platform fires its end event — so `stopListening` does not clear
`sessionActive`. -/

structure RecState where
  recPresent : Bool
  isListening : Bool
  sessionActive : Bool
  cb : Option Nat
deriving DecidableEq, Repr

/-- Outcome of one `recognition.start()` platform call. -/
inductive StartOutcome
  | ok
  | alreadyActive
  | otherFailure
deriving DecidableEq, Repr

/-- A fault-free platform: `start()` throws `InvalidStateError`
(`alreadyActive`) exactly when a session is already active. -/
def platformStart (sessionActive : Bool) : StartOutcome :=
  if sessionActive then .alreadyActive else .ok

structure StartResult where
  state : RecState
  threw : Bool
deriving DecidableEq, Repr

/-- `startListening` (lines 111-125).  With no capability: alert and return
(lines 112-115).  Otherwise set `this.isListening = true` and record the
callback (lines 116-117) — note these writes happen before the `try` — then
call `recognition.start()`; an `InvalidStateError` is swallowed (lines
120-124), any other exception propagates to the caller (line 122). -/
def startListening (s : RecState) (k : Nat) (o : StartOutcome) : StartResult :=
  if !s.recPresent then
    { state := s, threw := false }
  else
    let s1 : RecState := { s with isListening := true, cb := some k }
    match o with
    | .ok => { state := { s1 with sessionActive := true }, threw := false }
    | .alreadyActive => { state := s1, threw := false }
    | .otherFailure => { state := s1, threw := true }

/-- `stopListening` (lines 127-132): only acts when the capability exists;
sets `this.isListening = false` and requests a platform stop. -/
def stopListening (s : RecState) : RecState :=
  if s.recPresent then { s with isListening := false } else s

structure ToggleResult where
  state : RecState
  returned : Option Bool
deriving DecidableEq, Repr

/-- `toggleSpeech` (lines 178-185): stop if listening, else start, then return
`this.isListening` as read after the branch; `none` models an exception from
`startListening` escaping before the `return`. -/
def toggleSpeech (s : RecState) (k : Nat) (o : StartOutcome) : ToggleResult :=
  if s.isListening then
    let s' := stopListening s
    { state := s', returned := some s'.isListening }
  else
    let r := startListening s k o
    { state := r.state, returned := if r.threw then none else some r.state.isListening }

/-- Two `toggleSpeech` calls in direct succession against the fault-free
platform, with no platform event in between. -/
def toggleTwice (s : RecState) (k k' : Nat) : ToggleResult × ToggleResult :=
  let r1 := toggleSpeech s k (platformStart s.sessionActive)
  let r2 := toggleSpeech r1.state k' (platformStart r1.state.sessionActive)
  (r1, r2)

/-- Claim C6: from a non-listening state with the recognition capability
present, toggling twice in succession returns `true` then `false`, and
`isListening` equals each returned value immediately after the call. -/
theorem c6_toggle_round_trip (s : RecState) (k k' : Nat)
    (hrec : s.recPresent = true) (hidle : s.isListening = false) :
    (toggleTwice s k k').1.returned = some true ∧
      (toggleTwice s k k').1.state.isListening = true ∧
      (toggleTwice s k k').2.returned = some false ∧
      (toggleTwice s k k').2.state.isListening = false := by
  cases hsa : s.sessionActive <;>
    simp [toggleTwice, toggleSpeech, startListening, stopListening, platformStart,
      hrec, hidle, hsa]

theorem c6_toggle_round_trip_witness :
    (toggleTwice ⟨true, false, false, none⟩ 0 1).1.returned = some true ∧
      (toggleTwice ⟨true, false, false, none⟩ 0 1).1.state.isListening = true ∧
      (toggleTwice ⟨true, false, false, none⟩ 0 1).2.returned = some false ∧
      (toggleTwice ⟨true, false, false, none⟩ 0 1).2.state.isListening = false :=
  c6_toggle_round_trip ⟨true, false, false, none⟩ 0 1 rfl rfl

/-- Claim C7, counterexample: a `startListening` call in which the platform
raises the already-started rejection is indeed silent (nothing thrown), but
the controller's observable state is not unchanged: from a non-listening state
(e.g. just after `stopListening`, while the old session is still winding
down), the call flips `isListening` to `true` and records the callback. -/
theorem c7_state_changed_cex :
    (startListening ⟨true, false, true, none⟩ 0 .alreadyActive).threw = false ∧
      (startListening ⟨true, false, true, none⟩ 0 .alreadyActive).state ≠
        ⟨true, false, true, none⟩ := by
  decide

/-- Claim C7 (amended): when the platform rejects the start because a session
is already active, the rejection is swallowed — nothing is thrown — and the
controller ends in exactly the state a successful start would leave
(`isListening = true`, callback recorded, platform session untouched); in
particular the state is unchanged whenever the controller was already
listening with that same callback (the rapid-toggle case). -/
theorem c7_silent_already_active (s : RecState) (k : Nat)
    (hrec : s.recPresent = true) :
    (startListening s k .alreadyActive).threw = false ∧
      (startListening s k .alreadyActive).state =
        { s with isListening := true, cb := some k } ∧
      (s.isListening = true → s.cb = some k →
        (startListening s k .alreadyActive).state = s) := by
  have hstate : (startListening s k .alreadyActive).state =
      { s with isListening := true, cb := some k } := by
    simp [startListening, hrec]
  refine ⟨by simp [startListening, hrec], hstate, ?_⟩
  intro h1 h2
  rw [hstate]
  cases s
  simp_all

theorem c7_silent_already_active_witness :
    (startListening ⟨true, true, true, some 5⟩ 5 .alreadyActive).threw = false ∧
      (startListening ⟨true, true, true, some 5⟩ 5 .alreadyActive).state =
        { (⟨true, true, true, some 5⟩ : RecState) with
            isListening := true, cb := some 5 } ∧
      ((⟨true, true, true, some 5⟩ : RecState).isListening = true →
        (⟨true, true, true, some 5⟩ : RecState).cb = some 5 →
        (startListening ⟨true, true, true, some 5⟩ 5 .alreadyActive).state =
          ⟨true, true, true, some 5⟩) :=
  c7_silent_already_active ⟨true, true, true, some 5⟩ 5 rfl

/-- The single kind of task `recognition.onend` can schedule: the
`setTimeout` callback that makes one `recognition.start()` attempt,
swallowing an `InvalidStateError` (lines 60-68). -/
inductive TimerTask
  | tryRestart
deriving DecidableEq, Repr

/-- The `recognition.onend` handler (lines 58-70): when `this.isListening` is
still true the end was unexpected and exactly one restart attempt is scheduled
after a 100 ms delay; when it is false nothing is scheduled. -/
def recognitionOnEnd (isListening : Bool) : List (Nat × TimerTask) :=
  if isListening then [(100, TimerTask.tryRestart)] else []

/-- Claim C8: an end event in the `Listening` state schedules exactly one
restart attempt, after a 100 ms delay; in the `Idle` state it schedules
none. -/
theorem c8_onend_restart :
    recognitionOnEnd true = [(100, TimerTask.tryRestart)] ∧
      (recognitionOnEnd true).length = 1 ∧
      recognitionOnEnd false = [] := by
  decide

/-! ## One uninterrupted `speak()` call (lines 134-176)

`speakRun` is the trace of a single `speak(text, character)` execution with
the synthesis capability present and no overlapping call: the event list it
produces records, in program order, the recognition stop (line 142), the
global cancel (line 145), each `synthesis.speak(utterance)` enqueue with the
trimmed sentence text (lines 151, 165), the 200 ms inter-sentence pause
(line 168), and the delayed recognition restart (lines 171-175).  Each
utterance's awaited promise is resolved by whichever of the platform's
end/error events fires — `outcomes i` — through the registered handlers
(lines 163-164).  The second component is `this.isListening` once the call
(including the delayed restart) has completed. -/

inductive UttOutcome
  | ended
  | errored
deriving DecidableEq, Repr

inductive HandlerAct
  | resolve
deriving DecidableEq, Repr

/-- Lines 163-164: `utterance.onend = resolve; utterance.onerror = resolve` —
the error event resumes the loop exactly as the end event does. -/
def utteranceHandler : UttOutcome → HandlerAct
  | .ended => .resolve
  | .errored => .resolve

inductive SpeakEv
  | recStop
  | synthCancel
  | enqueue (u : List Char)
  | interPause
  | recStart
deriving DecidableEq, Repr

/-- The `for (const sentence of sentences)` loop (lines 149-169): enqueue the
utterance, suspend until the end-or-error event resolves the promise, pause
200 ms, continue. -/
def speakLoop (outcomes : Nat → UttOutcome) : List (List Char) → Nat → List SpeakEv
  | [], _ => []
  | u :: rest, i =>
    SpeakEv.enqueue u ::
      match utteranceHandler (outcomes i) with
      | .resolve => SpeakEv.interPause :: speakLoop outcomes rest (i + 1)

def speakRun (wasListening : Bool) (text : List Char) (outcomes : Nat → UttOutcome) :
    List SpeakEv × Bool :=
  let body := SpeakEv.synthCancel :: speakLoop outcomes (spokenUnits text) 0
  if wasListening then
    (SpeakEv.recStop :: body ++ [SpeakEv.recStart], true)
  else
    (body, false)

lemma speakLoop_eq (o : Nat → UttOutcome) :
    ∀ (us : List (List Char)) (i : Nat),
      speakLoop o us i =
        (us.map (fun u => [SpeakEv.enqueue u, SpeakEv.interPause])).flatten := by
  intro us
  induction us with
  | nil => intro i; rfl
  | cons u rest ih =>
    intro i
    cases h : utteranceHandler (o i)
    simp [speakLoop, h, ih (i + 1)]

/-- The utterance texts passed to the platform's synthesis enqueue, in
order. -/
def enqueuedTexts : List SpeakEv → List (List Char)
  | [] => []
  | SpeakEv.enqueue u :: rest => u :: enqueuedTexts rest
  | SpeakEv.recStop :: rest => enqueuedTexts rest
  | SpeakEv.synthCancel :: rest => enqueuedTexts rest
  | SpeakEv.interPause :: rest => enqueuedTexts rest
  | SpeakEv.recStart :: rest => enqueuedTexts rest

lemma enqueuedTexts_append (l1 l2 : List SpeakEv) :
    enqueuedTexts (l1 ++ l2) = enqueuedTexts l1 ++ enqueuedTexts l2 := by
  induction l1 with
  | nil => rfl
  | cons e rest ih => cases e <;> simp [enqueuedTexts, ih]

lemma enqueuedTexts_join (us : List (List Char)) :
    enqueuedTexts ((us.map (fun u => [SpeakEv.enqueue u, SpeakEv.interPause])).flatten)
      = us := by
  induction us with
  | nil => rfl
  | cons u rest ih => simp [enqueuedTexts, ih]

/-- Claim C2: a `speak` call entered while listening produces exactly the
trace "stop recognition, cancel, the utterances in order, restart
recognition" — recognition is stopped before the first utterance is enqueued
and restarted only after the last one completed, whatever each utterance's
end-or-error outcome was — and ends listening; a call entered idle produces
the same trace without any recognition event and ends idle. -/
theorem c2_recognition_bracketing (text : List Char) (outcomes : Nat → UttOutcome) :
    speakRun true text outcomes =
        (SpeakEv.recStop :: SpeakEv.synthCancel ::
          (((spokenUnits text).map
              (fun u => [SpeakEv.enqueue u, SpeakEv.interPause])).flatten
            ++ [SpeakEv.recStart]), true) ∧
      speakRun false text outcomes =
        (SpeakEv.synthCancel ::
          ((spokenUnits text).map
            (fun u => [SpeakEv.enqueue u, SpeakEv.interPause])).flatten, false) := by
  unfold speakRun
  rw [speakLoop_eq]
  simp

/-- Claim C9: the trace of one `speak` call does not depend on which
utterances ended in error rather than success — the same sentences are
enqueued, in the same order, namely all split units — and the call completes
normally (it is a total function producing its full trace, never a propagated
failure). -/
theorem c9_utterance_error_ignored (w : Bool) (text : List Char)
    (o o' : Nat → UttOutcome) :
    speakRun w text o = speakRun w text o' ∧
      enqueuedTexts (speakRun w text o).1 = spokenUnits text := by
  constructor
  · unfold speakRun
    rw [speakLoop_eq, speakLoop_eq]
  · unfold speakRun
    rw [speakLoop_eq]
    cases w <;>
      simp [enqueuedTexts, enqueuedTexts_append, enqueuedTexts_join]

/-! ## Overlapping `speak()` calls (claim C1)

`speak` is `async`: between enqueuing one utterance and the next it suspends
on the utterance's end-or-error promise (lines 162-166) and then on the 200 ms
timer (line 168).  While it is suspended, the single-threaded event loop can
run another `speak()` call on the same handler.  The only cross-call
cancellation in the code is the one `this.synthesis.cancel()` at the top of
`speak` (line 145): it flushes the platform queue and fires the end/error
events of the flushed and in-flight utterances — which *resolves* the older
call's pending promise, after which the older call's `for` loop continues and
enqueues its next sentence.  There is no generation counter or cancellation
token that would stop the older loop.

The machine below models this.  A `Coro` is a suspended `speak` call: its
remaining sentences and whether its pending promise has been resolved
(`resumable`).  The scheduler commands are the event-loop steps:

* `callSpeak i text` — a new `speak(text, ...)` invocation runs synchronously
  up to its first suspension: it performs `synthesis.cancel()` and enqueues
  its first sentence (recognition is idle throughout, so lines 140-143 and
  171-175 do nothing);
* `platformNext` — the platform takes the queue head and begins speaking it
  (recorded in `begun`, the delivery order);
* `utterFinish` — the platform finishes the in-flight utterance and fires its
  end event, resolving the owner's promise;
* `resume i` — the event loop runs coroutine `i`'s continuation (its promise
  resolved earlier and the 200 ms pause elapsed): it enqueues its next
  sentence and suspends again, or — with no sentence left — returns. -/

inductive CoroStatus
  | waiting
  | resumable
deriving DecidableEq, Repr

structure Coro where
  id : Nat
  pending : List (List Char)
  status : CoroStatus
deriving DecidableEq, Repr

structure SynthState where
  queue : List (Nat × List Char)
  current : Option (Nat × List Char)
  begun : List (Nat × List Char)
  coros : List Coro
deriving DecidableEq, Repr

inductive Cmd
  | callSpeak (id : Nat) (text : List Char)
  | platformNext
  | utterFinish
  | resume (id : Nat)
deriving DecidableEq, Repr

def markResumable (ids : List Nat) (cs : List Coro) : List Coro :=
  cs.map fun c => if ids.contains c.id then { c with status := CoroStatus.resumable } else c

/-- `this.synthesis.cancel()` (line 145): empty the queue, stop the in-flight
utterance, and fire the cancelled utterances' end/error events — both
registered handlers are `resolve` (lines 163-164), so every owner coroutine
becomes resumable. -/
def cancelSynth (s : SynthState) : SynthState :=
  let owners := s.queue.map Prod.fst ++ s.current.toList.map Prod.fst
  { s with queue := [], current := none, coros := markResumable owners s.coros }

def stepCmd (s : SynthState) : Cmd → SynthState
  | .callSpeak i text =>
    let s1 := cancelSynth s
    match spokenUnits text with
    | [] => s1
    | u :: rest =>
      { s1 with queue := s1.queue ++ [(i, u)],
                coros := s1.coros ++ [⟨i, rest, CoroStatus.waiting⟩] }
  | .platformNext =>
    match s.current, s.queue with
    | none, u :: rest =>
      { s with current := some u, queue := rest, begun := s.begun ++ [u] }
    | _, _ => s
  | .utterFinish =>
    match s.current with
    | some (i, _) => { s with current := none, coros := markResumable [i] s.coros }
    | none => s
  | .resume i =>
    match s.coros.find? (fun c => c.id == i) with
    | some c =>
      match c.status with
      | .waiting => s
      | .resumable =>
        match c.pending with
        | [] => { s with coros := s.coros.filter (fun c' => !(c'.id == i)) }
        | u :: rest =>
          { s with queue := s.queue ++ [(i, u)],
                   coros := s.coros.map
                     (fun c' => if c'.id == i then ⟨i, rest, CoroStatus.waiting⟩ else c') }
    | none => s

def initSynth : SynthState := ⟨[], none, [], []⟩

def runCmds (cmds : List Cmd) : SynthState := cmds.foldl stepCmd initSynth

/-- The property claim C1 asserts of the delivery order: once the second
call's first utterance has begun, no utterance of the first call begins. -/
def newerPreempted : List (Nat × List Char) → Bool
  | [] => true
  | u :: rest => if u.1 == 2 then rest.all (fun v => !(v.1 == 1)) else newerPreempted rest

/-- The overlapping scenario: `speak("A. B.")` as call 1; while its first
utterance `"A."` is being spoken, `speak("X.")` arrives as call 2 (its
`cancel()` resolves call 1's pending promise); the platform begins `"X."`;
call 1's resolved continuation then runs and enqueues `"B."`; `"X."` finishes,
call 2 returns, and the platform begins `"B."`. -/
def c1Schedule : List Cmd :=
  [Cmd.callSpeak 1 ("A. B.".toList),
   Cmd.platformNext,
   Cmd.callSpeak 2 ("X.".toList),
   Cmd.platformNext,
   Cmd.resume 1,
   Cmd.utterFinish,
   Cmd.resume 2,
   Cmd.platformNext]

/-- Claim C1 fails on the code: in the scheduled overlapping execution the
delivery order is `"A."` (call 1), `"X."` (call 2), then `"B."` — an utterance
of the first call — begins after the second call's first utterance, because
nothing stops the first call's sentence loop after `synthesis.cancel()`. -/
theorem c1_stale_utterance_delivered :
    (runCmds c1Schedule).begun =
        [(1, "A.".toList), (2, "X.".toList), (1, "B.".toList)] ∧
      newerPreempted (runCmds c1Schedule).begun = false := by
  decide

end SwarmChat
